import Mathlib

set_option autoImplicit false

/-!
Verification of the CodeGame javascript-client connection/session/event-dispatch
core against its specification.  The definitions below are shallow embeddings of
the TypeScript source: the event dispatcher (`Socket.listen`,
`Socket.removeListener`, `Socket.triggerListeners` of the current `Socket`
class), its historical variant, the transport negotiator (`Socket.protocol` and
`Socket.create` of the oldest variant), the identity resolver
(`Socket.getUsername` / `Socket.fetchUsername`), `GameSocket.send`,
`GameSocket.connect` / `GameSocket.saveSession`, and the `NodeDataStore`
persistence layer.  Collaborator behaviour (HTTP accessor results, the
underlying WebSocket) is passed in as explicit oracle parameters; listener
callbacks are opaque computations that may throw but do not re-enter the
dispatcher, matching the specified properties, which quantify over externally
performed register/remove sequences.
-/

namespace CodeGame

/-- Logging levels of the `Socket` (the `Verbosity` enum of the source). -/
inductive Verbosity
  | silent
  | error
  | warning
  | info
  | debug
deriving DecidableEq, Repr

/-- `Socket.verbosityReached`: whether the current verbosity level is at least
the required one.  Mirrors the if/else chain of the source (note that the
source has no case for a current level of `warning`). -/
def verbosityReached (verbosity required : Verbosity) : Bool :=
  if verbosity = Verbosity.silent then false
  else if verbosity = Verbosity.error ∧ required = Verbosity.error then true
  else if verbosity = Verbosity.info ∧
    (required = Verbosity.info ∨ required = Verbosity.error) then true
  else if verbosity = Verbosity.debug then true
  else false

/-- The `EventListenerWrapper` record of the source, without the opaque
callback function (callback behaviour is supplied by an oracle keyed by the
listener id). -/
structure EventListenerWrapper where
  name : String
  once : Bool
deriving DecidableEq, Repr

/-- The listener registry of the `Socket` class: `listeners` is the
id-to-wrapper map (ids are `Symbol()` values in the source, fresh opaque
tokens, modelled as naturals issued by `nextId`), `listenerGroups` maps an
event name to the JS `Set` of listener ids registered for it (insertion
order, no duplicates). -/
structure DispatcherState where
  listeners : List (Nat × EventListenerWrapper)
  listenerGroups : List (String × List Nat)
  nextId : Nat
deriving DecidableEq, Repr

/-- JS `Set.add`: appends the element unless it is already present. -/
def setAdd (g : List Nat) (id : Nat) : List Nat :=
  if id ∈ g then g else g ++ [id]

/-- Update the value stored under `name` in a name-keyed object, leaving
every other property unchanged. -/
def updateGroup (groups : List (String × List Nat)) (name : String)
    (f : List Nat → List Nat) : List (String × List Nat) :=
  groups.map fun e => if e.1 = name then (e.1, f e.2) else e

/-- `if (!this.listenerGroups[name]) this.listenerGroups[name] = new Set();` -/
def ensureGroup (groups : List (String × List Nat)) (name : String) :
    List (String × List Nat) :=
  if (groups.lookup name).isSome then groups else groups ++ [(name, [])]

/-- `Socket.listen(name, callback, once)`: issues a fresh id, adds it to the
name's listener group and records the wrapper. -/
def listen (s : DispatcherState) (name : String) (once : Bool) :
    Nat × DispatcherState :=
  let id := s.nextId
  (id,
    { listeners := s.listeners ++ [(id, ⟨name, once⟩)],
      listenerGroups :=
        updateGroup (ensureGroup s.listenerGroups name) name (fun g => setAdd g id),
      nextId := id + 1 })

/-- `Socket.removeListener(id)` of the current `Socket` class: if a wrapper is
registered under `id`, deletes the id from its name's group and from the
listener map and returns `true`; otherwise returns `false` and changes
nothing. -/
def removeListener (s : DispatcherState) (id : Nat) : Bool × DispatcherState :=
  match s.listeners.lookup id with
  | some w =>
    (true,
      { s with
        listenerGroups := updateGroup s.listenerGroups w.name (fun g => g.erase id),
        listeners := s.listeners.filter (fun p => p.1 != id) })
  | none => (false, s)

/-- `Socket.removeListener(id)` of the two historical `Socket` variants, which
read `this.listeners[id].name` without first checking that the id is known:
on an unknown id the property access yields `undefined` and reading `.name`
raises a `TypeError`, modelled as `none`. -/
def removeListenerV1 (s : DispatcherState) (id : Nat) : Option DispatcherState :=
  match s.listeners.lookup id with
  | none => none
  | some w =>
    some
      { s with
        listenerGroups := updateGroup s.listenerGroups w.name (fun g => g.erase id),
        listeners := s.listeners.filter (fun p => p.1 != id) }

/-- A callback invocation: the oracle `throws` says which listeners raise. -/
def callCallback (throws : Nat → Bool) (id : Nat) : Except Unit Unit :=
  if throws id then Except.error () else Except.ok ()

/-- Result of `Socket.triggerListeners`: the ids invoked in order, the ids
whose exception was logged at the dispatch boundary, and the state after the
dispatch. -/
structure TriggerResult where
  invoked : List Nat
  errLogged : List Nat
  state : DispatcherState
deriving DecidableEq, Repr

/-- The body of the `for (const id of this.listenerGroups[eventName])` loop of
`Socket.triggerListeners`: each id is looked up, its callback invoked inside
`try/catch` (an exception is logged when the verbosity reaches `error` and
iteration continues), and a `once` listener removes itself immediately after
its invocation.  Deleting the current element of a JS `Set` during iteration
does not disturb the remaining elements, so iterating the snapshot taken at
loop entry is faithful. -/
def triggerLoop (v : Verbosity) (throws : Nat → Bool) :
    List Nat → DispatcherState → TriggerResult
  | [], s => ⟨[], [], s⟩
  | id :: rest, s =>
    match s.listeners.lookup id with
    | none => triggerLoop v throws rest s
    | some w =>
      let s' := if w.once then (removeListener s id).2 else s
      let r := triggerLoop v throws rest s'
      { invoked := id :: r.invoked,
        errLogged :=
          (match callCallback throws id with
            | Except.ok _ => []
            | Except.error _ =>
              if verbosityReached v Verbosity.error then [id] else []) ++ r.errLogged,
        state := r.state }

/-- `Socket.triggerListeners(eventName, ...data)`: returns immediately when no
group exists for the event name, otherwise runs the loop over the group. -/
def triggerListeners (v : Verbosity) (throws : Nat → Bool)
    (s : DispatcherState) (eventName : String) : TriggerResult :=
  match s.listenerGroups.lookup eventName with
  | none => ⟨[], [], s⟩
  | some g => triggerLoop v throws g s

/-- An externally performed call on the dispatcher: `listen` (via `on`/`once`)
or `removeListener`. -/
inductive DispatcherOp
  | register (name : String) (once : Bool)
  | remove (id : Nat)

/-- Effect of one external call on the registry. -/
def applyOp (s : DispatcherState) : DispatcherOp → DispatcherState
  | DispatcherOp.register n o => (listen s n o).2
  | DispatcherOp.remove id => (removeListener s id).2

/-- The registry of a freshly constructed `Socket`. -/
def initDispatcher : DispatcherState := ⟨[], [], 0⟩

/-- Effect of a sequence of external calls. -/
def applyOps (s : DispatcherState) (ops : List DispatcherOp) : DispatcherState :=
  ops.foldl applyOp s

/-- The ids named by the `remove` calls of a call sequence. -/
def removesIn (ops : List DispatcherOp) : List Nat :=
  ops.filterMap fun op =>
    match op with
    | DispatcherOp.remove id => some id
    | _ => none

/-- Specification-side registry: the registrations of a call sequence that are
never removed afterwards, in registration order, with the ids the dispatcher
issues (the k-th `register` call receives id `k` counting from the start). -/
def liveRegs : List DispatcherOp → Nat → List (Nat × EventListenerWrapper)
  | [], _ => []
  | DispatcherOp.register n o :: rest, k =>
    if k ∈ removesIn rest then liveRegs rest (k + 1)
    else (k, ⟨n, o⟩) :: liveRegs rest (k + 1)
  | DispatcherOp.remove _ :: rest, k => liveRegs rest k

/-- Specification-side registry computed left to right. -/
def finalRegs : List (Nat × EventListenerWrapper) → Nat → List DispatcherOp →
    List (Nat × EventListenerWrapper)
  | regs, _, [] => regs
  | regs, k, DispatcherOp.register n o :: rest =>
    finalRegs (regs ++ [(k, ⟨n, o⟩)]) (k + 1) rest
  | regs, k, DispatcherOp.remove id :: rest =>
    finalRegs (regs.filter (fun r => r.1 != id)) k rest

/-- The listener group stored for an event name (empty when absent). -/
def groupOf (s : DispatcherState) (n : String) : List Nat :=
  (s.listenerGroups.lookup n).getD []

/-- The live registrations for one event name, in registration order. -/
def regsFor (regs : List (Nat × EventListenerWrapper)) (n : String) :
    List (Nat × EventListenerWrapper) :=
  regs.filter fun r => r.2.name == n

/-- Abstraction relation between a dispatcher state and the list of live
registrations in registration order. -/
structure Models (s : DispatcherState) (regs : List (Nat × EventListenerWrapper)) : Prop where
  listeners_eq : s.listeners = regs
  groups_eq : ∀ n, groupOf s n = (regsFor regs n).map Prod.fst
  keys_nodup : (regs.map Prod.fst).Nodup
  keys_lt : ∀ r ∈ regs, r.1 < s.nextId

/-- The ids of the `once` listeners among a list of registrations. -/
def onceIds (regs : List (Nat × EventListenerWrapper)) : List Nat :=
  (regs.filter fun r => r.2.once).map Prod.fst

namespace V0

/-- Parsed response body of the `create` accessor of the oldest API module:
either it carries a `game_id`, or a `message`, or neither of the two keys. -/
inductive CreateData
  | gameId (id : String)
  | message (msg : String)
  | other
deriving DecidableEq, Repr

/-- The `Res` record the `create` accessor resolves with.  `networkError` is
only present (`some true`) when the fetch itself rejected; `error` is `none`
when the accessor left it `undefined`. -/
structure CreateRes where
  data : Option CreateData
  networkError : Option Bool
  error : Option String
deriving DecidableEq, Repr

/-- `Socket.protocol` of the oldest `Socket` variant: the candidate protocols
to try, derived from the tri-state `tls` field (`none` is `undefined`). -/
def protocol (tls : Option Bool) (protocol : String) : List String :=
  match tls with
  | none => [protocol ++ "s", protocol]
  | some true => [protocol ++ "s"]
  | some false => [protocol]

/-- What `Socket.create` produces: the settled promise (`Except.ok` is a
normal return value, `Except.error` a thrown value) and the `tls` field
afterwards. -/
structure CreateOutcome where
  result : Except String String
  tls : Option Bool
deriving Repr

/-- The `for (const protocol of this.protocol(..))` loop of `Socket.create`.
`errSt` is the `err` variable: `none` is its initial JS `null`, and
`some e` holds the `res.error` of the last failed attempt (`e = none` models
`undefined`).  `netErr` is the `networkError` variable, initially `undefined`
(`none`).  On a response carrying `game_id` the loop returns it, setting
`tls = true` only when no earlier attempt failed (`err === null`); on a
response carrying `message` that message is thrown; any other response marks
the attempt failed (`tls = false`) and moves on.  After the loop, a pending
network error is returned (not thrown) as the string below without resetting
`tls`, otherwise `tls` is reset to `undefined` and the last error (or a
generic message when it is falsy) is thrown. -/
def createLoop (attempt : String → CreateRes) :
    List String → Option Bool → Option (Option String) → Option (Option Bool) →
      CreateOutcome
  | [], tls, errSt, netErr =>
    if netErr = some (some true) then
      ⟨Except.ok "A network error occurred while trying to connect to the server.", tls⟩
    else
      ⟨Except.error
        (match errSt with
          | some (some e) => if e = "" then "Something went extremely wrong." else e
          | _ => "Something went extremely wrong."),
        none⟩
  | proto :: rest, tls, errSt, _netErr =>
    let res := attempt proto
    match res.data with
    | some (CreateData.gameId id) =>
      ⟨Except.ok id, if errSt = none then some true else tls⟩
    | some (CreateData.message m) => ⟨Except.error m, tls⟩
    | _ => createLoop attempt rest (some false) (some res.error) (some res.networkError)

/-- `Socket.create(_public)` of the oldest `Socket` variant, as a function of
the current `tls` state and of the per-protocol outcome of the `create`
accessor. -/
def create (attempt : String → CreateRes) (tls : Option Bool) : CreateOutcome :=
  createLoop attempt (protocol tls "http") tls none none

end V0

/-- Log entries the client can produce. -/
inductive LogMsg
  | infoMsg (text : String)
  | warnMsg (text : String)
  | errorMsg (text : String)
deriving DecidableEq, Repr

/-- Parsed response body of the `getPlayer` accessor: either an object with a
`username` property or anything else. -/
inductive PlayerData
  | username (u : String)
  | other
deriving DecidableEq, Repr

/-- The `Res` record of the `getPlayer` accessor (the fields `fetchUsername`
reads). -/
structure PlayerRes where
  data : Option PlayerData
  statusCode : Option Nat
  networkError : Option Bool
deriving DecidableEq, Repr

/-- The `Res` record of the `getPlayers` accessor (the fields
`fetchAllUsernames` reads). -/
structure PlayersRes where
  data : Option (List (String × String))
  networkError : Option Bool
deriving DecidableEq, Repr

/-- The slice of the current `Socket` state the identity resolver touches. -/
structure SocketState where
  gameId : Option String
  usernameCache : List (String × String)
  verbosity : Verbosity
deriving DecidableEq, Repr

/-- Outcome of a resolver call: returned value, state afterwards, log entries
produced, and the number of `getPlayer` network queries performed. -/
structure ResolveOutcome where
  result : Option String
  state : SocketState
  log : List LogMsg
  playerQueries : Nat
deriving DecidableEq, Repr

/-- JS object property assignment `cache[pid] = u`: overwrite or append. -/
def cacheInsert (cache : List (String × String)) (pid u : String) :
    List (String × String) :=
  if (cache.lookup pid).isSome
    then cache.map (fun e => if e.1 = pid then (e.1, u) else e)
    else cache ++ [(pid, u)]

/-- `Socket.fetchUsername(playerId)`: with a game id set, performs one
`getPlayer` query; a response with a `username` is cached and returned, a 404
logs a warning (at sufficient verbosity) and a network error logs an error
(at sufficient verbosity), both returning `null`.  Without a game id set, no
query is made, an error is logged (at sufficient verbosity) and `null` is
returned. -/
def fetchUsername (net : String → String → PlayerRes) (s : SocketState)
    (playerId : String) : ResolveOutcome :=
  match s.gameId with
  | some gid =>
    let res := net gid playerId
    match res.data with
    | some (PlayerData.username u) =>
      ⟨some u, { s with usernameCache := cacheInsert s.usernameCache playerId u }, [], 1⟩
    | _ =>
      ⟨none, s,
        (if res.statusCode = some 404 ∧ verbosityReached s.verbosity Verbosity.warning
          then [LogMsg.warnMsg ("Unable to find username for player \"" ++ playerId ++ "\".")]
          else [])
        ++ (if res.networkError = some true ∧ verbosityReached s.verbosity Verbosity.error
          then [LogMsg.errorMsg "A network error occurred while trying to connect to the server."]
          else []),
        1⟩
  | none =>
    ⟨none, s,
      (if verbosityReached s.verbosity Verbosity.error
        then [LogMsg.errorMsg "Cannot resolve usernames before connecting to a game."]
        else []),
      0⟩

/-- `Socket.getUsername(playerId)`, which is
`this.usernameCache[playerId] || await this.fetchUsername(playerId)`: a
cached value is returned only when it is truthy (a cached empty string is
falsy and falls through to the fetch). -/
def getUsername (net : String → String → PlayerRes) (s : SocketState)
    (playerId : String) : ResolveOutcome :=
  match s.usernameCache.lookup playerId with
  | some u => if u = "" then fetchUsername net s playerId else ⟨some u, s, [], 0⟩
  | none => fetchUsername net s playerId

/-- `Socket.fetchAllUsernames()`: with a game id set, one `getPlayers` query,
whose roster is merged into the cache with `Object.assign`; without a game id
set, nothing but an error log (at sufficient verbosity). -/
def fetchAllUsernames (netAll : String → PlayersRes) (s : SocketState) :
    SocketState × List LogMsg :=
  match s.gameId with
  | some gid =>
    let res := netAll gid
    ({ s with
        usernameCache :=
          match res.data with
          | some entries => entries.foldl (fun c e => cacheInsert c e.1 e.2) s.usernameCache
          | none => s.usernameCache },
      if res.networkError = some true ∧ verbosityReached s.verbosity Verbosity.error
        then [LogMsg.errorMsg "A network error occurred while trying to connect to the server."]
        else [])
  | none =>
    (s,
      if verbosityReached s.verbosity Verbosity.error
        then [LogMsg.errorMsg "Cannot get usernames before connecting to a game."]
        else [])

/-- States of the current `Socket` reachable through the identity-resolver
operations without any game id ever being set (no `create`, `join`, `connect`
or `spectate` has run). -/
inductive NoGameReach : SocketState → Prop
  | init (v : Verbosity) : NoGameReach ⟨none, [], v⟩
  | stepGet (net : String → String → PlayerRes) (pid : String) {s : SocketState} :
      NoGameReach s → NoGameReach (getUsername net s pid).state
  | stepFetch (net : String → String → PlayerRes) (pid : String) {s : SocketState} :
      NoGameReach s → NoGameReach (fetchUsername net s pid).state
  | stepFetchAll (netAll : String → PlayersRes) {s : SocketState} :
      NoGameReach s → NoGameReach (fetchAllUsernames netAll s).1
  | stepVerbosity (v : Verbosity) {s : SocketState} :
      NoGameReach s → NoGameReach ⟨s.gameId, s.usernameCache, v⟩

/-- Lower-case hex digit for a value below 16. -/
def hexDigit (n : Nat) : Char :=
  if n < 10 then Char.ofNat (48 + n) else Char.ofNat (87 + n)

/-- Value of a hex digit character. -/
def hexVal (c : Char) : Option Nat :=
  if 48 ≤ c.toNat ∧ c.toNat ≤ 57 then some (c.toNat - 48)
  else if 97 ≤ c.toNat ∧ c.toNat ≤ 102 then some (c.toNat - 87)
  else if 65 ≤ c.toNat ∧ c.toNat ≤ 70 then some (c.toNat - 55)
  else none

/-- The escape sequence `JSON.stringify` emits for one character inside a
string literal: quote and backslash are escaped, the five control characters
with short forms use them, any other control character becomes a `\u00XX`
sequence, and everything else is emitted as itself. -/
def escapeChar (c : Char) : List Char :=
  if c = '"' then ['\\', '"']
  else if c = '\\' then ['\\', '\\']
  else if c = '\n' then ['\\', 'n']
  else if c = '\r' then ['\\', 'r']
  else if c = '\t' then ['\\', 't']
  else if c = Char.ofNat 8 then ['\\', 'b']
  else if c = Char.ofNat 12 then ['\\', 'f']
  else if c.toNat < 32 then
    ['\\', 'u', '0', '0', hexDigit (c.toNat / 16), hexDigit (c.toNat % 16)]
  else [c]

/-- A JSON string literal (quotes and escaping) as a character list. -/
def quoteChars (s : String) : List Char :=
  '"' :: ((s.data.map escapeChar).flatten ++ ['"'])

/-- A JSON string literal as produced by `JSON.stringify` for `s`. -/
def quoteJson (s : String) : String := String.mk (quoteChars s)

/-- The inverse of a short escape sequence accepted by `JSON.parse`. -/
def unescapeChar (e : Char) : Option Char :=
  if e = '"' then some '"'
  else if e = '\\' then some '\\'
  else if e = '/' then some '/'
  else if e = 'n' then some '\n'
  else if e = 'r' then some '\r'
  else if e = 't' then some '\t'
  else if e = 'b' then some (Char.ofNat 8)
  else if e = 'f' then some (Char.ofNat 12)
  else none

/-- Value of a four-digit hex escape. -/
def parseHex4 (h1 h2 h3 h4 : Char) : Option Nat :=
  match hexVal h1, hexVal h2, hexVal h3, hexVal h4 with
  | some v1, some v2, some v3, some v4 => some (((v1 * 16 + v2) * 16 + v3) * 16 + v4)
  | _, _, _, _ => none

/-- String-literal body parser of `JSON.parse`: consumes characters until the
closing quote, decoding escape sequences; `acc` holds the decoded characters
in reverse. -/
def parseQuotedAux (acc : List Char) : List Char → Option (String × List Char)
  | [] => none
  | c :: rest =>
    if c = '"' then some (String.mk acc.reverse, rest)
    else if c = '\\' then
      match rest with
      | [] => none
      | e :: rest' =>
        if e = 'u' then
          match rest' with
          | h1 :: h2 :: h3 :: h4 :: rest'' =>
            match parseHex4 h1 h2 h3 h4 with
            | some v => parseQuotedAux (Char.ofNat v :: acc) rest''
            | none => none
          | _ => none
        else
          match unescapeChar e with
          | some c' => parseQuotedAux (c' :: acc) rest'
          | none => none
    else parseQuotedAux (c :: acc) rest

/-- A JSON string literal parser: expects an opening quote. -/
def parseQuoted : List Char → Option (String × List Char)
  | [] => none
  | c :: rest => if c = '"' then parseQuotedAux [] rest else none

/-- Consume an expected literal prefix. -/
def parseLit : List Char → List Char → Option (List Char)
  | [], cs => some cs
  | _ :: _, [] => none
  | l :: ls, c :: cs => if c = l then parseLit ls cs else none

/-- The `Session` record of the current `GameSocket`. -/
structure Session where
  game_id : String
  player_id : String
  player_secret : String
deriving DecidableEq, Repr

/-- `JSON.stringify(session, null, 2)` as a character list: the canonical
two-space-indented object shape `NodeDataStore.writeJSON` stores. -/
def sessionChars (sess : Session) : List Char :=
  ("\x7b\n  \"game_id\": ").data ++ quoteChars sess.game_id
    ++ (",\n  \"player_id\": ").data ++ quoteChars sess.player_id
    ++ (",\n  \"player_secret\": ").data ++ quoteChars sess.player_secret
    ++ ("\n\x7d").data

/-- `JSON.stringify(session, null, 2)`. -/
def serializeSession (sess : Session) : String := String.mk (sessionChars sess)

/-- `JSON.parse` restricted to the canonical session shape produced by
`NodeDataStore.writeJSON`, which is the only shape the round-trip law feeds
back to `readJSON`. -/
def parseSessionChars (cs : List Char) : Option Session :=
  match parseLit ("\x7b\n  \"game_id\": ").data cs with
  | none => none
  | some cs1 =>
    match parseQuoted cs1 with
    | none => none
    | some (g, cs2) =>
      match parseLit (",\n  \"player_id\": ").data cs2 with
      | none => none
      | some cs3 =>
        match parseQuoted cs3 with
        | none => none
        | some (p, cs4) =>
          match parseLit (",\n  \"player_secret\": ").data cs4 with
          | none => none
          | some cs5 =>
            match parseQuoted cs5 with
            | none => none
            | some (q, cs6) =>
              match parseLit ("\n\x7d").data cs6 with
              | some [] => some ⟨g, p, q⟩
              | _ => none

/-- `JSON.parse` on a stored session file. -/
def parseSession (s : String) : Option Session := parseSessionChars s.data

/-- `path.join(...)` of Node, restricted to the plain relative segments the
client passes. -/
def joinPath (path : List String) : String := String.intercalate "/" path

namespace NodeDataStore

/-- `existsSync` over the file-system model (a map from joined path to file
contents). -/
def existsSync (fs : List (String × String)) (p : String) : Bool :=
  (fs.lookup p).isSome

/-- `writeFileSync`: overwrite or create. -/
def writeFileSync (fs : List (String × String)) (p contents : String) :
    List (String × String) :=
  if (fs.lookup p).isSome
    then fs.map (fun e => if e.1 = p then (e.1, contents) else e)
    else fs ++ [(p, contents)]

/-- `NodeDataStore.writeJSON(path, data)` for a session: `mkdir` only touches
directories (not modelled in the file map), then the serialized JSON is
written to `join(...path)`. -/
def writeJSON (fs : List (String × String)) (path : List String) (sess : Session) :
    List (String × String) :=
  writeFileSync fs (joinPath path) (serializeSession sess)

/-- `NodeDataStore.readJSON(path)` on session files:
`existsSync(join(...path)) ? JSON.parse(readFileSync(join(...path))) : null`. -/
def readJSON (fs : List (String × String)) (path : List String) : Option Session :=
  match fs.lookup (joinPath path) with
  | some contents => parseSession contents
  | none => none

/-- `NodeDataStore._delete(path)`: `unlinkSync(join(...path))`, which throws
`ENOENT` when the file does not exist. -/
def deleteJSON (fs : List (String × String)) (path : List String) :
    Except String (List (String × String)) :=
  if (fs.lookup (joinPath path)).isSome
    then Except.ok (fs.filter (fun e => e.1 != joinPath path))
    else Except.error "ENOENT"

end NodeDataStore

/-- A JSON-serializable JS value, the payload shape `send` accepts. -/
inductive Json
  | null
  | bool (b : Bool)
  | num (n : Int)
  | str (s : String)
  | arr (elems : List Json)
  | obj (fields : List (String × Json))
deriving Repr

mutual

/-- `JSON.stringify` (compact form, property order preserved). -/
def Json.stringify : Json → String
  | Json.null => "null"
  | Json.bool true => "true"
  | Json.bool false => "false"
  | Json.num n => toString n
  | Json.str s => quoteJson s
  | Json.arr elems => "[" ++ Json.stringifyArray elems ++ "]"
  | Json.obj fields => "\x7b" ++ Json.stringifyFields fields ++ "\x7d"

/-- Comma-separated serialization of array elements. -/
def Json.stringifyArray : List Json → String
  | [] => ""
  | [x] => Json.stringify x
  | x :: xs => Json.stringify x ++ "," ++ Json.stringifyArray xs

/-- Comma-separated serialization of object properties. -/
def Json.stringifyFields : List (String × Json) → String
  | [] => ""
  | [f] => quoteJson f.1 ++ ":" ++ Json.stringify f.2
  | f :: fs => quoteJson f.1 ++ ":" ++ Json.stringify f.2 ++ "," ++ Json.stringifyFields fs

end

/-- `JSON.stringify({ name, data: zerothData })`: a property whose value is
`undefined` (an absent payload) is omitted by `JSON.stringify`. -/
def stringifyEnvelope (name : String) (data : Option Json) : String :=
  Json.stringify (Json.obj (("name", Json.str name) ::
    (match data with
      | some d => [("data", d)]
      | none => [])))

/-- The established WebSocket of the connection manager (`this.socket`),
with the ready state of the underlying connection. -/
structure WsConn where
  openFlag : Bool
deriving DecidableEq, Repr

/-- The slice of `GameSocket` state that `send` touches. -/
structure SendState where
  socket : Option WsConn
  verbosity : Verbosity
deriving DecidableEq, Repr

/-- The collaborating `WebSocket.send`: delivers the frame on an open socket
and raises on one that is not open (as the Node `ws` implementation the
client is built against does). -/
def wsSend (c : WsConn) (frame : String) : Except String (List String) :=
  if c.openFlag then Except.ok [frame] else Except.error "InvalidStateError"

/-- `GameSocket.send(name, ...data)`: with an established socket the JSON
envelope is serialized and handed to the socket inside `try/catch` (an
exception is caught and logged at `error` verbosity, a delivered frame is
logged at `debug` verbosity); with no established socket an error is logged
at `error` verbosity and the message is dropped.  The returned state is the
socket state after the call (the source mutates nothing). -/
def send (s : SendState) (name : String) (data : Option Json) :
    SendState × List String × List LogMsg :=
  match s.socket with
  | some c =>
    match wsSend c (stringifyEnvelope name data) with
    | Except.ok frames =>
      (s, frames,
        if verbosityReached s.verbosity Verbosity.debug
          then [LogMsg.infoMsg ("sent \"" ++ name ++ "\":")]
          else [])
    | Except.error _ =>
      (s, [],
        if verbosityReached s.verbosity Verbosity.error
          then [LogMsg.errorMsg ("Unable to send command \"" ++ name ++ "\":")]
          else [])
  | none =>
    (s, [],
      if verbosityReached s.verbosity Verbosity.error
        then [LogMsg.errorMsg "There is currently no WebSocket connection established!"]
        else [])

/-- JS truthiness of a JSON-serializable value. -/
def jsTruthy : Json → Bool
  | Json.null => false
  | Json.bool b => b
  | Json.num n => n != 0
  | Json.str s => s != ""
  | Json.arr _ => true
  | Json.obj _ => true

/-- `JSON.stringify({ name, zerothOptions })` as built by the historical
`CodeGameSocket.emit`: the shorthand property syntax stores the payload under
the property name `zerothOptions`, not under `data`; an `undefined` payload
is omitted. -/
def stringifyEmitFrame (name : String) (data : Option Json) : String :=
  Json.stringify (Json.obj (("name", Json.str name) ::
    (match data with
      | some d => [("zerothOptions", d)]
      | none => [])))

/-- `CodeGameSocket.emit(name, ...options)` of the historical variant: a
falsy event name is refused with an error log and nothing is sent; otherwise
`JSON.stringify({ name, zerothOptions })` is handed to the constructor-built
socket inside `try/catch` (`sockOpen` supplies the underlying send outcome):
a delivered frame is logged when `verbose` is on, an exception is caught and
logged as an error. -/
def emit (verbose : Bool) (sockOpen : Bool) (name : String) (data : Option Json) :
    List String × List LogMsg :=
  if name = "" then
    ([], [LogMsg.errorMsg "Property `name: string` cannot be undefined."])
  else
    match (if sockOpen then Except.ok [stringifyEmitFrame name data]
           else Except.error "InvalidStateError" : Except String (List String)) with
    | Except.ok frames =>
      (frames,
        if verbose then
          [LogMsg.infoMsg ("emitted \"" ++ name ++ "\""
            ++ (match data with
                 | some d => if jsTruthy d then ":" else ""
                 | none => ""))]
        else [])
    | Except.error _ =>
      ([], [LogMsg.errorMsg ("Unable to emit event \"" ++ name ++ "\":")])

/-- Upper-case hex digit, as `encodeURIComponent` emits. -/
def hexDigitUpper (n : Nat) : Char :=
  if n < 10 then Char.ofNat (48 + n) else Char.ofNat (55 + n)

/-- Characters `encodeURIComponent` leaves unescaped. -/
def isUnreservedURI (c : Char) : Bool :=
  c.isAlphanum || c = '-' || c = '_' || c = '.' || c = '!' || c = '~' || c = '*'
    || c = '\'' || c = '(' || c = ')'

/-- Percent-encoding of one UTF-8 byte. -/
def encodeByte (b : UInt8) : List Char :=
  ['%', hexDigitUpper (b.toNat / 16), hexDigitUpper (b.toNat % 16)]

/-- `encodeURIComponent(c)` for one character. -/
def encodeURIComponentChar (c : Char) : List Char :=
  if isUnreservedURI c then [c]
  else ((String.singleton c).toUTF8.toList.map encodeByte).flatten

/-- `encodeURIComponent`. -/
def encodeURIComponent (s : String) : String :=
  String.mk ((s.data.map encodeURIComponentChar).flatten)

/-- `NodeDataStore.GAMES_PATH` is `join(envPaths('codegame').data, 'games')`;
the platform data directory is environment input, so the constant is
abbreviated to its stable trailing segment (only its role as a storage key
matters to the claims). -/
def GAMES_PATH : String := "games"

/-- The WebSocket endpoint `GameSocket.connect` opens. -/
def connectEndpoint (gameId playerId playerSecret : String) : String :=
  "/api/games/" ++ gameId ++ "/connect?player_id=" ++ playerId
    ++ "&player_secret=" ++ playerSecret

/-- The slice of `GameSocket` state that `connect` and `saveSession` touch:
the inherited `Socket` fields, the in-memory `session`, the `dataStore` file
map, and the endpoint of the established WebSocket, if any. -/
structure GSState where
  sock : SocketState
  session : Option Session
  store : List (String × String)
  socket : Option String
deriving DecidableEq, Repr

/-- `GameSocket.saveSession(host, username, gameId, playerId, playerSecret)`:
records the session in memory and persists it under
`[GAMES_PATH, encodeURIComponent(host), username]`. -/
def saveSession (s : GSState) (host username gameId playerId playerSecret : String) :
    GSState :=
  let sess : Session := ⟨gameId, playerId, playerSecret⟩
  { s with
    session := some sess,
    store := NodeDataStore.writeJSON s.store
      [GAMES_PATH, encodeURIComponent host, username] sess }

/-- What `GameSocket.connect` produces: the settled promise and the socket
state afterwards. -/
structure ConnectOutcome where
  result : Except String Unit
  state : GSState
deriving Repr

/-- `GameSocket.connect(gameId, playerId, playerSecret)`: sets `this.gameId`,
resolves the username via `getUsername` (which may query the network and
populate the cache), and if the resolved username is truthy saves the session
and only then awaits `makeWebSocketConnection` (outcome supplied by the
`connOk` oracle): on success the socket is open on the connect endpoint, on
failure the promise rejects with the socket error — the session stays saved.
A falsy resolution (null or the empty string) rejects with the
player-not-found message without touching the store. -/
def connect (net : String → String → PlayerRes) (connOk : Bool) (host : String)
    (s : GSState) (gameId playerId playerSecret : String) : ConnectOutcome :=
  let s1 : GSState := { s with sock := { s.sock with gameId := some gameId } }
  let r := getUsername net s1.sock playerId
  let s2 : GSState := { s1 with sock := r.state }
  match r.result with
  | some u =>
    if u = "" then
      ⟨Except.error ("Player with ID \"" ++ playerId
        ++ "\" does not exist on the specifited game server \"" ++ host ++ "\"."), s2⟩
    else
      let s3 := saveSession s2 host u gameId playerId playerSecret
      if connOk then
        ⟨Except.ok (), { s3 with socket := some (connectEndpoint gameId playerId playerSecret) }⟩
      else ⟨Except.error "WebSocket connection failed", s3⟩
  | none =>
    ⟨Except.error ("Player with ID \"" ++ playerId
      ++ "\" does not exist on the specifited game server \"" ++ host ++ "\"."), s2⟩

section LookupLemmas

variable {α : Type} {β : Type} [BEq α] [LawfulBEq α]

theorem lookup_eq_some_of_mem :
    ∀ {l : List (α × β)} {a : α} {b : β},
      (l.map Prod.fst).Nodup → (a, b) ∈ l → l.lookup a = some b := by
  intro l
  induction l with
  | nil => intro a b _ h; cases h
  | cons hd tl ih =>
    intro a b hnd hmem
    obtain ⟨k, v⟩ := hd
    by_cases hak : a = k
    · subst hak
      have hb : b = v := by
        rcases List.mem_cons.mp hmem with h | h
        · cases h; rfl
        · exfalso
          have hkeys : a ∈ tl.map Prod.fst := List.mem_map.mpr ⟨(a, b), h, rfl⟩
          exact (List.nodup_cons.mp (by simpa using hnd)).1 hkeys
      subst hb
      simp [List.lookup]
    · have hmem' : (a, b) ∈ tl := by
        rcases List.mem_cons.mp hmem with h | h
        · cases h; exact absurd rfl hak
        · exact h
      have := ih (List.nodup_cons.mp (by simpa using hnd)).2 hmem'
      have hbeq : (a == k) = false := beq_eq_false_iff_ne.mpr hak
      simpa [List.lookup, hbeq] using this

theorem lookup_eq_none_of_not_mem {l : List (α × β)} {a : α}
    (h : a ∉ l.map Prod.fst) : l.lookup a = none := by
  refine List.lookup_eq_none_iff.mpr fun p hp => ?_
  have : a ≠ p.1 := fun e => h (List.mem_map.mpr ⟨p, hp, e.symm⟩)
  simpa using this

theorem lookup_filter_ne {l : List (α × β)} {k id : α} (h : k ≠ id) :
    (l.filter (fun p => p.1 != id)).lookup k = l.lookup k := by
  induction l with
  | nil => rfl
  | cons hd tl ih =>
    obtain ⟨a, b⟩ := hd
    by_cases haid : a = id
    · subst haid
      have hbne : (a != a) = false := by simp
      have hbeq : (k == a) = false := beq_eq_false_iff_ne.mpr h
      simp [List.filter, List.lookup, hbne, hbeq, ih]
    · have hbne : (a != id) = true := bne_iff_ne.mpr haid
      by_cases hka : k = a
      · subst hka
        simp [List.filter, List.lookup, hbne]
      · have hbeq : (k == a) = false := beq_eq_false_iff_ne.mpr hka
        simp [List.filter, List.lookup, hbne, hbeq, ih]

theorem filter_ne_eq_self {l : List (α × β)} {id : α}
    (h : id ∉ l.map Prod.fst) : l.filter (fun p => p.1 != id) = l := by
  induction l with
  | nil => rfl
  | cons hd tl ih =>
    have hne : hd.1 ≠ id := by
      intro e
      exact h (List.mem_map.mpr ⟨hd, List.mem_cons_self _ _, e⟩)
    have htl : id ∉ tl.map Prod.fst := fun hm => h (List.mem_cons_of_mem _ hm)
    simp [List.filter, bne_iff_ne.mpr hne, ih htl]

theorem entry_unique {l : List (α × β)} {a : α} {b1 b2 : β}
    (hnd : (l.map Prod.fst).Nodup) (h1 : (a, b1) ∈ l) (h2 : (a, b2) ∈ l) :
    b1 = b2 := by
  have e1 := lookup_eq_some_of_mem hnd h1
  have e2 := lookup_eq_some_of_mem hnd h2
  exact Option.some.inj (e1.symm.trans e2)

end LookupLemmas

section GroupLemmas

theorem lookup_updateGroup_self (groups : List (String × List Nat)) (name : String)
    (f : List Nat → List Nat) :
    (updateGroup groups name f).lookup name = (groups.lookup name).map f := by
  induction groups with
  | nil => rfl
  | cons hd tl ih =>
    obtain ⟨k, g⟩ := hd
    simp only [updateGroup, List.map_cons]
    by_cases hk : k = name
    · subst hk
      rw [if_pos rfl]
      simp [List.lookup]
    · rw [if_neg (by simpa using hk)]
      have hbeq : (name == k) = false := beq_eq_false_iff_ne.mpr (Ne.symm hk)
      simp only [List.lookup, hbeq]
      exact ih

theorem lookup_updateGroup_ne (groups : List (String × List Nat)) {name n : String}
    (f : List Nat → List Nat) (h : n ≠ name) :
    (updateGroup groups name f).lookup n = groups.lookup n := by
  induction groups with
  | nil => rfl
  | cons hd tl ih =>
    obtain ⟨k, g⟩ := hd
    simp only [updateGroup, List.map_cons]
    by_cases hk : k = name
    · subst hk
      rw [if_pos rfl]
      have hbeq : (n == k) = false := beq_eq_false_iff_ne.mpr h
      simp only [List.lookup, hbeq]
      exact ih
    · rw [if_neg (by simpa using hk)]
      by_cases hn : n = k
      · subst hn
        simp [List.lookup]
      · have hbeq : (n == k) = false := beq_eq_false_iff_ne.mpr hn
        simp only [List.lookup, hbeq]
        exact ih

theorem lookup_append (l1 l2 : List (String × List Nat)) (a : String) :
    (l1 ++ l2).lookup a =
      match l1.lookup a with
      | some v => some v
      | none => l2.lookup a := by
  induction l1 with
  | nil => rfl
  | cons hd tl ih =>
    obtain ⟨k, g⟩ := hd
    by_cases hk : a = k
    · subst hk
      simp [List.lookup]
    · have hbeq : (a == k) = false := beq_eq_false_iff_ne.mpr hk
      simp only [List.cons_append, List.lookup, hbeq]
      exact ih

theorem lookup_ensureGroup_self (groups : List (String × List Nat)) (name : String) :
    (ensureGroup groups name).lookup name = some ((groups.lookup name).getD []) := by
  unfold ensureGroup
  cases hl : groups.lookup name with
  | some g => simp [hl]
  | none =>
    simp only [hl, Option.isSome_none, Bool.false_eq_true, if_false]
    rw [lookup_append]
    simp [hl, List.lookup]

theorem lookup_ensureGroup_ne (groups : List (String × List Nat)) {name n : String}
    (h : n ≠ name) : (ensureGroup groups name).lookup n = groups.lookup n := by
  unfold ensureGroup
  cases hs : (groups.lookup name).isSome with
  | true => simp
  | false =>
    simp only [Bool.false_eq_true, if_false]
    rw [lookup_append]
    cases hl : groups.lookup n with
    | some g => rfl
    | none =>
      have hbeq : (n == name) = false := beq_eq_false_iff_ne.mpr h
      simp [List.lookup, hbeq]

end GroupLemmas

theorem models_init : Models initDispatcher [] := by
  refine ⟨rfl, fun n => rfl, by simp, fun r hr => by cases hr⟩

theorem regsFor_append (regs1 regs2 : List (Nat × EventListenerWrapper)) (n : String) :
    regsFor (regs1 ++ regs2) n = regsFor regs1 n ++ regsFor regs2 n :=
  List.filter_append _ _

theorem models_listen {s : DispatcherState} {regs : List (Nat × EventListenerWrapper)}
    (h : Models s regs) (n : String) (o : Bool) :
    Models (listen s n o).2 (regs ++ [(s.nextId, ⟨n, o⟩)]) := by
  obtain ⟨hl, hg, hnd, hlt⟩ := h
  have hidkeys : s.nextId ∉ regs.map Prod.fst := by
    intro hm
    obtain ⟨r, hr, e⟩ := List.mem_map.mp hm
    have := hlt r hr
    omega
  constructor
  · simp [listen, hl]
  · intro m
    by_cases hm : m = n
    · subst hm
      have hid : s.nextId ∉ groupOf s m := by
        intro hmem
        rw [hg m] at hmem
        obtain ⟨r, hr, e⟩ := List.mem_map.mp hmem
        have := hlt r (List.mem_of_mem_filter hr)
        omega
      have hnew : groupOf (listen s m o).2 m = setAdd (groupOf s m) s.nextId := by
        unfold groupOf
        simp only [listen]
        rw [lookup_updateGroup_self, lookup_ensureGroup_self]
        rfl
      rw [hnew]
      unfold setAdd
      rw [if_neg hid, hg m, regsFor_append]
      have : regsFor [(s.nextId, (⟨m, o⟩ : EventListenerWrapper))] m
          = [(s.nextId, (⟨m, o⟩ : EventListenerWrapper))] := by
        simp [regsFor, List.filter]
      rw [this]
      simp
    · have hnew : groupOf (listen s n o).2 m = groupOf s m := by
        unfold groupOf
        simp only [listen]
        rw [lookup_updateGroup_ne _ _ hm, lookup_ensureGroup_ne _ hm]
      rw [hnew, hg m, regsFor_append]
      have : regsFor [(s.nextId, (⟨n, o⟩ : EventListenerWrapper))] m = [] := by
        simp [regsFor, List.filter, beq_eq_false_iff_ne.mpr (fun e => hm e.symm)]
      rw [this]
      simp
  · simp only [List.map_append, List.map_cons, List.map_nil]
    rw [List.nodup_append]
    refine ⟨hnd, by simp, ?_⟩
    intro a ha hb
    simp at hb
    subst hb
    exact hidkeys ha
  · intro r hr
    rcases List.mem_append.mp hr with hr | hr
    · have := hlt r hr
      simp only [listen]
      omega
    · simp at hr
      subst hr
      simp [listen]

theorem removeListener_not_mem {s : DispatcherState} {regs : List (Nat × EventListenerWrapper)}
    {id : Nat} (h : Models s regs) (hid : id ∉ regs.map Prod.fst) :
    removeListener s id = (false, s) := by
  unfold removeListener
  rw [h.listeners_eq, lookup_eq_none_of_not_mem hid]

theorem models_removeListener {s : DispatcherState} {regs : List (Nat × EventListenerWrapper)}
    {id : Nat} {w : EventListenerWrapper} (h : Models s regs) (hmem : (id, w) ∈ regs) :
    (removeListener s id).1 = true ∧
      Models (removeListener s id).2 (regs.filter fun r => r.1 != id) := by
  obtain ⟨hl, hg, hnd, hlt⟩ := h
  have hlook : regs.lookup id = some w := lookup_eq_some_of_mem hnd hmem
  have hres : removeListener s id =
      (true,
        { s with
          listenerGroups := updateGroup s.listenerGroups w.name (fun g => g.erase id),
          listeners := s.listeners.filter (fun p => p.1 != id) }) := by
    unfold removeListener
    rw [hl, hlook]
  rw [hres]
  refine ⟨rfl, ?_, ?_, ?_, ?_⟩
  · simp [hl]
  · intro m
    by_cases hm : m = w.name
    · subst hm
      have hmemg : id ∈ groupOf s w.name := by
        rw [hg w.name]
        exact List.mem_map.mpr ⟨(id, w), List.mem_filter.mpr ⟨hmem, by simp⟩, rfl⟩
      cases hlw : s.listenerGroups.lookup w.name with
      | none =>
        exfalso
        unfold groupOf at hmemg
        rw [hlw] at hmemg
        cases hmemg
      | some g =>
        have hgof : groupOf s w.name = g := by
          unfold groupOf
          rw [hlw]
          rfl
        have hnew : groupOf
            { s with
              listenerGroups := updateGroup s.listenerGroups w.name (fun g => g.erase id),
              listeners := s.listeners.filter (fun p => p.1 != id) } w.name = g.erase id := by
          unfold groupOf
          simp only
          rw [lookup_updateGroup_self, hlw]
          rfl
        rw [hnew, ← hgof, hg w.name]
        have hndg : ((regsFor regs w.name).map Prod.fst).Nodup :=
          List.Nodup.sublist ((List.filter_sublist regs).map Prod.fst) hnd
        rw [List.Nodup.erase_eq_filter hndg, List.filter_map]
        have hcomm : (regsFor regs w.name).filter ((fun x => x != id) ∘ Prod.fst)
            = regsFor (regs.filter fun r => r.1 != id) w.name := by
          unfold regsFor
          rw [List.filter_filter, List.filter_filter]
          exact List.filter_congr fun a _ => Bool.and_comm _ _
        rw [hcomm]
    · have hnew : groupOf
          { s with
            listenerGroups := updateGroup s.listenerGroups w.name (fun g => g.erase id),
            listeners := s.listeners.filter (fun p => p.1 != id) } m = groupOf s m := by
        unfold groupOf
        simp only
        rw [lookup_updateGroup_ne _ _ hm]
      rw [hnew, hg m]
      have : regsFor (regs.filter fun r => r.1 != id) m = regsFor regs m := by
        unfold regsFor
        rw [List.filter_filter]
        refine List.filter_congr fun r hr => ?_
        cases hname : r.2.name == m with
        | false => simp
        | true =>
          simp only [Bool.true_and]
          refine bne_iff_ne.mpr fun e => ?_
          have hrmem : (id, r.2) ∈ regs := by
            have : r = (id, r.2) := by
              obtain ⟨r1, r2⟩ := r
              simp at e
              simp [e]
            exact this ▸ hr
          have : r.2 = w := entry_unique hnd hrmem hmem
          rw [this] at hname
          exact hm (beq_iff_eq.mp hname).symm
      rw [this]
  · exact List.Nodup.sublist ((List.filter_sublist regs).map Prod.fst) hnd
  · intro r hr
    exact hlt r (List.mem_of_mem_filter hr)

theorem removeListener_nextId (s : DispatcherState) (id : Nat) :
    (removeListener s id).2.nextId = s.nextId := by
  unfold removeListener
  cases s.listeners.lookup id <;> rfl

theorem models_applyOps {s : DispatcherState} {regs : List (Nat × EventListenerWrapper)}
    (h : Models s regs) (ops : List DispatcherOp) :
    Models (applyOps s ops) (finalRegs regs s.nextId ops) := by
  induction ops generalizing s regs with
  | nil => exact h
  | cons op rest ih =>
    cases op with
    | register n o =>
      have h' := ih (models_listen h n o)
      have hnext : (listen s n o).2.nextId = s.nextId + 1 := rfl
      rw [hnext] at h'
      exact h'
    | remove id =>
      by_cases hid : id ∈ regs.map Prod.fst
      · obtain ⟨r, hr, e⟩ := List.mem_map.mp hid
        obtain ⟨i, w⟩ := r
        cases e
        have h' := ih (models_removeListener h hr).2
        rw [removeListener_nextId] at h'
        exact h'
      · have hnoop : removeListener s id = (false, s) := removeListener_not_mem h hid
        have hfilter : regs.filter (fun r => r.1 != id) = regs := filter_ne_eq_self hid
        show Models (applyOps (removeListener s id).2 rest)
          (finalRegs (regs.filter fun r => r.1 != id) s.nextId rest)
        rw [hnoop, hfilter]
        exact ih h

theorem finalRegs_eq (ops : List DispatcherOp) :
    ∀ (regs : List (Nat × EventListenerWrapper)) (k : Nat),
      finalRegs regs k ops
        = regs.filter (fun r => !(removesIn ops).contains r.1) ++ liveRegs ops k := by
  induction ops with
  | nil =>
    intro regs k
    simp [finalRegs, removesIn, liveRegs]
  | cons op rest ih =>
    intro regs k
    cases op with
    | register n o =>
      have hrem : removesIn (DispatcherOp.register n o :: rest) = removesIn rest := by
        simp [removesIn]
      show finalRegs (regs ++ [(k, ⟨n, o⟩)]) (k + 1) rest = _
      rw [ih, List.filter_append, hrem]
      show _ = regs.filter _ ++ liveRegs (DispatcherOp.register n o :: rest) k
      by_cases hk : k ∈ removesIn rest
      · have h1 : [((k, ⟨n, o⟩) : Nat × EventListenerWrapper)].filter
            (fun r => !(removesIn rest).contains r.1) = [] := by
          simp [List.filter, hk]
        have h2 : liveRegs (DispatcherOp.register n o :: rest) k = liveRegs rest (k + 1) := by
          simp [liveRegs, hk]
        rw [h1, h2]
        simp
      · have h1 : [((k, ⟨n, o⟩) : Nat × EventListenerWrapper)].filter
            (fun r => !(removesIn rest).contains r.1)
            = [((k, ⟨n, o⟩) : Nat × EventListenerWrapper)] := by
          simp [List.filter, hk]
        have h2 : liveRegs (DispatcherOp.register n o :: rest) k
            = (k, ⟨n, o⟩) :: liveRegs rest (k + 1) := by
          simp [liveRegs, hk]
        rw [h1, h2]
        simp
    | remove id =>
      have hrem : removesIn (DispatcherOp.remove id :: rest) = id :: removesIn rest := by
        simp [removesIn]
      show finalRegs (regs.filter fun r => r.1 != id) k rest = _
      rw [ih, hrem]
      show _ = regs.filter _ ++ liveRegs rest k
      congr 1
      rw [List.filter_filter]
      refine List.filter_congr fun r _ => ?_
      by_cases h1 : r.1 = id <;> by_cases h2 : r.1 ∈ removesIn rest <;>
        simp [h1, h2, List.mem_cons]

theorem models_ops (ops : List DispatcherOp) :
    Models (applyOps initDispatcher ops) (liveRegs ops 0) := by
  have h := models_applyOps models_init ops
  rw [finalRegs_eq] at h
  simpa [initDispatcher] using h

theorem triggerLoop_spec (v : Verbosity) (throws : Nat → Bool) :
    ∀ (sub : List (Nat × EventListenerWrapper)) (s : DispatcherState)
      (regs : List (Nat × EventListenerWrapper)),
      Models s regs → (∀ r ∈ sub, r ∈ regs) → (sub.map Prod.fst).Nodup →
      (triggerLoop v throws (sub.map Prod.fst) s).invoked = sub.map Prod.fst ∧
        Models (triggerLoop v throws (sub.map Prod.fst) s).state
          (regs.filter fun r => !(onceIds sub).contains r.1) := by
  intro sub
  induction sub with
  | nil =>
    intro s regs h _ _
    refine ⟨rfl, ?_⟩
    simpa [onceIds] using h
  | cons hd rest ih =>
    intro s regs h hsub hnd
    obtain ⟨id, w⟩ := hd
    have hmem : (id, w) ∈ regs := hsub _ (List.mem_cons_self _ _)
    have hlook : s.listeners.lookup id = some w := by
      rw [h.listeners_eq]
      exact lookup_eq_some_of_mem h.keys_nodup hmem
    have hnd' : (id :: rest.map Prod.fst).Nodup := by simpa using hnd
    have hidrest : id ∉ rest.map Prod.fst := (List.nodup_cons.mp hnd').1
    have hndrest : (rest.map Prod.fst).Nodup := (List.nodup_cons.mp hnd').2
    have hstep : triggerLoop v throws (((id, w) :: rest).map Prod.fst) s
        = (let s' := if w.once then (removeListener s id).2 else s
           let r := triggerLoop v throws (rest.map Prod.fst) s'
           { invoked := id :: r.invoked,
             errLogged :=
               (match callCallback throws id with
                 | Except.ok _ => []
                 | Except.error _ =>
                   if verbosityReached v Verbosity.error then [id] else []) ++ r.errLogged,
             state := r.state }) := by
      simp only [List.map_cons, triggerLoop, hlook]
    rw [hstep]
    cases honce : w.once with
    | true =>
      have h2 := (models_removeListener h hmem).2
      have hsub' : ∀ r ∈ rest, r ∈ regs.filter (fun r => r.1 != id) := by
        intro r hr
        refine List.mem_filter.mpr ⟨hsub _ (List.mem_cons_of_mem _ hr), ?_⟩
        refine bne_iff_ne.mpr fun e => hidrest ?_
        exact List.mem_map.mpr ⟨r, hr, e⟩
      obtain ⟨hinv, hmod⟩ := ih _ _ h2 hsub' hndrest
      refine ⟨?_, ?_⟩
      · simp only [honce, if_true]
        simpa using hinv
      · simp only [honce, if_true]
        have hfilter : (regs.filter fun r => r.1 != id).filter
              (fun r => !(onceIds rest).contains r.1)
            = regs.filter fun r => !(onceIds ((id, w) :: rest)).contains r.1 := by
          rw [List.filter_filter]
          refine List.filter_congr fun r _ => ?_
          have hcons : onceIds ((id, w) :: rest) = id :: onceIds rest := by
            simp [onceIds, List.filter, honce]
          rw [hcons]
          by_cases h1 : r.1 = id <;> by_cases h2 : r.1 ∈ onceIds rest <;>
            simp [h1, h2, List.mem_cons]
        rw [← hfilter]
        simpa using hmod
    | false =>
      have hsub' : ∀ r ∈ rest, r ∈ regs := fun r hr => hsub _ (List.mem_cons_of_mem _ hr)
      obtain ⟨hinv, hmod⟩ := ih _ _ h hsub' hndrest
      refine ⟨?_, ?_⟩
      · simp only [honce, if_false]
        simpa using hinv
      · simp only [honce, if_false]
        have hcons : onceIds ((id, w) :: rest) = onceIds rest := by
          simp [onceIds, List.filter, honce]
        rw [hcons]
        simpa using hmod

theorem triggerListeners_of_models {s : DispatcherState}
    {regs : List (Nat × EventListenerWrapper)} (h : Models s regs)
    (v : Verbosity) (throws : Nat → Bool) (name : String) :
    (triggerListeners v throws s name).invoked = (regsFor regs name).map Prod.fst ∧
      Models (triggerListeners v throws s name).state
        (regs.filter fun r => !(onceIds (regsFor regs name)).contains r.1) := by
  unfold triggerListeners
  cases hl : s.listenerGroups.lookup name with
  | none =>
    have hgof : groupOf s name = [] := by
      unfold groupOf
      rw [hl]
      rfl
    have hmap : (regsFor regs name).map Prod.fst = [] := by
      rw [← h.groups_eq name, hgof]
    have hnil : regsFor regs name = [] := List.map_eq_nil_iff.mp hmap
    refine ⟨by rw [hmap], ?_⟩
    rw [hnil]
    simpa [onceIds] using h
  | some g =>
    have hg : g = (regsFor regs name).map Prod.fst := by
      have hgof : groupOf s name = g := by
        unfold groupOf
        rw [hl]
        rfl
      rw [← hgof, h.groups_eq name]
    rw [hg]
    refine triggerLoop_spec v throws (regsFor regs name) s regs h
      (fun r hr => List.mem_of_mem_filter hr)
      (List.Nodup.sublist ((List.filter_sublist regs).map Prod.fst) h.keys_nodup)

theorem triggerLoop_throws_independent (v : Verbosity) (t : Nat → Bool) :
    ∀ (g : List Nat) (s : DispatcherState),
      (triggerLoop v t g s).invoked = (triggerLoop v (fun _ => false) g s).invoked ∧
        (triggerLoop v t g s).state = (triggerLoop v (fun _ => false) g s).state ∧
        (triggerLoop v t g s).errLogged =
          (if verbosityReached v Verbosity.error
            then (triggerLoop v t g s).invoked.filter t else []) := by
  intro g
  induction g with
  | nil =>
    intro s
    refine ⟨rfl, rfl, ?_⟩
    cases verbosityReached v Verbosity.error <;> simp [triggerLoop]
  | cons id rest ih =>
    intro s
    cases hlook : s.listeners.lookup id with
    | none =>
      simp only [triggerLoop, hlook]
      exact ih s
    | some w =>
      obtain ⟨hi, hs, hl⟩ := ih (if w.once then (removeListener s id).2 else s)
      simp only [triggerLoop, hlook]
      refine ⟨by simp [hi], by simp [hs], ?_⟩
      simp only [callCallback]
      cases ht : t id <;> cases hv : verbosityReached v Verbosity.error <;>
        simp [hl, ht, hv, List.filter]

theorem triggerListeners_throws_independent (v : Verbosity) (throws : Nat → Bool)
    (s : DispatcherState) (name : String) :
    (triggerListeners v throws s name).invoked
        = (triggerListeners v (fun _ => false) s name).invoked ∧
      (triggerListeners v throws s name).state
        = (triggerListeners v (fun _ => false) s name).state ∧
      (triggerListeners v throws s name).errLogged
        = (if verbosityReached v Verbosity.error
            then (triggerListeners v throws s name).invoked.filter throws else []) := by
  unfold triggerListeners
  cases s.listenerGroups.lookup name with
  | none =>
    refine ⟨rfl, rfl, ?_⟩
    cases verbosityReached v Verbosity.error <;> simp
  | some g => exact triggerLoop_throws_independent v throws g s

/-- Claim C1: for every sequence of register/remove calls on the event
dispatcher, dispatching an event name invokes exactly those listeners that
were registered for that name and not removed, in registration order (for any
verbosity level and any callback exception behaviour). -/
theorem dispatch_invokes_live_listeners_in_order
    (ops : List DispatcherOp) (name : String) (v : Verbosity) (throws : Nat → Bool) :
    (triggerListeners v throws (applyOps initDispatcher ops) name).invoked
      = (regsFor (liveRegs ops 0) name).map Prod.fst :=
  (triggerListeners_of_models (models_ops ops) v throws name).1

/-- Claim C2: a one-shot listener is invoked at most once: the dispatch that
first triggers it still invokes every live listener of the event name
(one-shot removal does not disturb the remaining listeners of the same
dispatch), a second dispatch of the same name invokes exactly the non-once
survivors, and no live one-shot listener is invoked by the second dispatch. -/
theorem once_listener_invoked_at_most_once
    (ops : List DispatcherOp) (name : String) (v1 v2 : Verbosity)
    (t1 t2 : Nat → Bool) :
    (triggerListeners v1 t1 (applyOps initDispatcher ops) name).invoked
        = (regsFor (liveRegs ops 0) name).map Prod.fst ∧
      (triggerListeners v2 t2
          (triggerListeners v1 t1 (applyOps initDispatcher ops) name).state name).invoked
        = ((regsFor (liveRegs ops 0) name).filter fun r => !r.2.once).map Prod.fst ∧
      ∀ id w, (id, w) ∈ regsFor (liveRegs ops 0) name → w.once = true →
        id ∉ (triggerListeners v2 t2
          (triggerListeners v1 t1 (applyOps initDispatcher ops) name).state name).invoked := by
  have hndkeys : ((liveRegs ops 0).map Prod.fst).Nodup := (models_ops ops).keys_nodup
  obtain ⟨h1, hmod⟩ := triggerListeners_of_models (models_ops ops) v1 t1 name
  obtain ⟨h2, _⟩ := triggerListeners_of_models hmod v2 t2 name
  have hregs : regsFor ((liveRegs ops 0).filter
        fun r => !(onceIds (regsFor (liveRegs ops 0) name)).contains r.1) name
      = (regsFor (liveRegs ops 0) name).filter fun r => !r.2.once := by
    unfold regsFor
    rw [List.filter_filter, List.filter_filter]
    refine List.filter_congr fun r hr => ?_
    cases hname : r.2.name == name with
    | false => simp
    | true =>
      simp only [Bool.and_true, Bool.true_and]
      have hiff : r.1 ∈ onceIds (regsFor (liveRegs ops 0) name) ↔ r.2.once = true := by
        constructor
        · intro hmem
          obtain ⟨r', hr', he⟩ := List.mem_map.mp hmem
          have hr'regs : r' ∈ liveRegs ops 0 :=
            List.mem_of_mem_filter (List.mem_of_mem_filter hr')
          have heq : r'.2 = r.2 := by
            have h1' : (r.1, r'.2) ∈ liveRegs ops 0 := by
              obtain ⟨a, b⟩ := r'
              cases he
              exact hr'regs
            exact entry_unique hndkeys h1' (by
              obtain ⟨a, b⟩ := r
              exact hr)
          have := (List.mem_filter.mp hr').2
          rw [heq] at this
          simpa using this
        · intro honce
          refine List.mem_map.mpr ⟨r, List.mem_filter.mpr ⟨?_, by simpa using honce⟩, rfl⟩
          unfold regsFor
          exact List.mem_filter.mpr ⟨hr, hname⟩
      cases honce : r.2.once with
      | true =>
        have hmem2 : r.1 ∈ onceIds (regsFor (liveRegs ops 0) name) := hiff.mpr honce
        have hmem3 : r.1 ∈ onceIds (List.filter (fun r => r.2.name == name) (liveRegs ops 0)) :=
          hmem2
        simp [hmem3]
      | false =>
        have hmem2 : r.1 ∉ onceIds (regsFor (liveRegs ops 0) name) := by
          intro hmem
          rw [hiff.mp hmem] at honce
          cases honce
        have hmem3 : r.1 ∉ onceIds (List.filter (fun r => r.2.name == name) (liveRegs ops 0)) :=
          hmem2
        simp [hmem3]
  refine ⟨h1, by rw [h2, hregs], ?_⟩
  intro id w hmem honce hinv
  rw [h2, hregs] at hinv
  obtain ⟨r', hr', he⟩ := List.mem_map.mp hinv
  have hr'name : r' ∈ regsFor (liveRegs ops 0) name := List.mem_of_mem_filter hr'
  have hr'regs : r' ∈ liveRegs ops 0 := List.mem_of_mem_filter hr'name
  have hwregs : (id, w) ∈ liveRegs ops 0 := List.mem_of_mem_filter hmem
  have heq : r'.2 = w := by
    have h1' : (id, r'.2) ∈ liveRegs ops 0 := by
      obtain ⟨a, b⟩ := r'
      cases he
      exact hr'regs
    exact entry_unique hndkeys h1' hwregs
  have := (List.mem_filter.mp hr').2
  rw [heq, honce] at this
  cases this

/-- Witness for claim C2 on a concrete trace: a `once` listener and an
ordinary listener for the same name, dispatched twice. -/
theorem once_listener_invoked_at_most_once_witness :
    (triggerListeners Verbosity.info (fun _ => false)
        (applyOps initDispatcher
          [DispatcherOp.register "a" true, DispatcherOp.register "a" false]) "a").invoked
      = [0, 1] ∧
    (triggerListeners Verbosity.info (fun _ => false)
        (triggerListeners Verbosity.info (fun _ => false)
          (applyOps initDispatcher
            [DispatcherOp.register "a" true, DispatcherOp.register "a" false]) "a").state
        "a").invoked
      = [1] ∧
    0 ∉ (triggerListeners Verbosity.info (fun _ => false)
        (triggerListeners Verbosity.info (fun _ => false)
          (applyOps initDispatcher
            [DispatcherOp.register "a" true, DispatcherOp.register "a" false]) "a").state
        "a").invoked := by
  have h := once_listener_invoked_at_most_once
    [DispatcherOp.register "a" true, DispatcherOp.register "a" false] "a"
    Verbosity.info Verbosity.info (fun _ => false) (fun _ => false)
  refine ⟨?_, ?_, ?_⟩
  · rw [h.1]
    rfl
  · rw [h.2.1]
    rfl
  · exact h.2.2 0 ⟨"a", true⟩ (by decide) rfl

/-- Claim C3: a listener callback exception is caught at the dispatch
boundary: the set and order of invoked listeners and the post-dispatch state
are exactly what they would be if no callback threw (so every listener after a
throwing one is still invoked), no exception reaches the dispatch caller (the
dispatch always returns a normal `TriggerResult`), and each throwing invoked
listener is logged exactly when the verbosity level reaches `error`. -/
theorem listener_exception_contained (v : Verbosity) (throws : Nat → Bool)
    (s : DispatcherState) (name : String) :
    (triggerListeners v throws s name).invoked
        = (triggerListeners v (fun _ => false) s name).invoked ∧
      (triggerListeners v throws s name).state
        = (triggerListeners v (fun _ => false) s name).state ∧
      (triggerListeners v throws s name).errLogged
        = (if verbosityReached v Verbosity.error
            then (triggerListeners v throws s name).invoked.filter throws else []) :=
  triggerListeners_throws_independent v throws s name

/-- Claim C4 counterexample: in the two historical `Socket` variants,
`removeListener` dereferences `this.listeners[id].name` without a guard, so
calling it with an id that was never issued (here on a fresh dispatcher)
raises a `TypeError` instead of being a safe no-op. -/
theorem remove_unknown_id_v1_raises :
    removeListenerV1 initDispatcher 0 = none := rfl

/-- Claim C4 (amended): in the current `Socket` class, `removeListener` with
an id that is not currently registered returns `false` and leaves the whole
registry unchanged; in the two historical variants the same call raises a
`TypeError`. -/
theorem remove_unknown_id_safe_noop (s : DispatcherState) (id : Nat)
    (h : s.listeners.lookup id = none) :
    removeListener s id = (false, s) := by
  unfold removeListener
  rw [h]

/-- Witness for the amended claim C4 at a concrete input. -/
theorem remove_unknown_id_safe_noop_witness :
    initDispatcher.listeners.lookup 0 = none ∧
      removeListener initDispatcher 0 = (false, initDispatcher) :=
  ⟨rfl, remove_unknown_id_safe_noop initDispatcher 0 rfl⟩

namespace V0

/-- Claim C5 counterexample: starting from an unknown `tls` state, when both
the secure and the insecure attempt fail with a network error, `create` does
not reset the flag to unknown (it stays `false`) and does not surface an
error to the caller: it returns the network-error message as a normal value,
as if it were the created game id. -/
theorem create_exhaustion_leaves_tls_false :
    create (fun _ => ⟨none, some true, some "connection refused"⟩) none
      = ⟨Except.ok "A network error occurred while trying to connect to the server.",
         some false⟩ := rfl

/-- Claim C5 (amended): scheme resolution is the stated function of the
tri-state flag (unknown yields secure then insecure, true only secure, false
only insecure); starting from unknown, a failed secure attempt followed by a
successful insecure attempt leaves the flag `false` and the next resolution
yields only the insecure candidate; but on exhausting all candidates without
success, if the last failure was a network error the flag stays `false` and
the network-error message is returned as a normal value instead of being
thrown, and only a non-network exhaustion resets the flag to unknown and
throws the pending error. -/
theorem transport_negotiator_resolution
    (p : String) (attempt : String → CreateRes) (g : String) :
    (protocol none p = [p ++ "s", p] ∧ protocol (some true) p = [p ++ "s"] ∧
      protocol (some false) p = [p]) ∧
    (((attempt "https").data = none ∨ (attempt "https").data = some CreateData.other) →
      (attempt "http").data = some (CreateData.gameId g) →
      create attempt none = ⟨Except.ok g, some false⟩ ∧
        protocol (create attempt none).tls "http" = ["http"]) ∧
    (((attempt "https").data = none ∨ (attempt "https").data = some CreateData.other) →
      ((attempt "http").data = none ∨ (attempt "http").data = some CreateData.other) →
      (attempt "http").networkError = some true →
      create attempt none
        = ⟨Except.ok "A network error occurred while trying to connect to the server.",
           some false⟩) ∧
    (((attempt "https").data = none ∨ (attempt "https").data = some CreateData.other) →
      ((attempt "http").data = none ∨ (attempt "http").data = some CreateData.other) →
      (attempt "http").networkError ≠ some true →
      (create attempt none).tls = none ∧
        ∃ m, (create attempt none).result = Except.error m) := by
  refine ⟨⟨rfl, rfl, rfl⟩, ?_, ?_, ?_⟩
  · intro h1 h2
    have hcr : create attempt none = ⟨Except.ok g, some false⟩ := by
      unfold create protocol createLoop
      rcases h1 with h1 | h1 <;>
        simp [h1, h2, createLoop]
    exact ⟨hcr, by rw [hcr]; rfl⟩
  · intro h1 h2 h3
    unfold create protocol createLoop
    rcases h1 with h1 | h1 <;> rcases h2 with h2 | h2 <;>
      simp [h1, h2, h3, createLoop]
  · intro h1 h2 h3
    have hcr : create attempt none
        = ⟨Except.error
            (match some ((attempt "http").error) with
              | some (some e) => if e = "" then "Something went extremely wrong." else e
              | _ => "Something went extremely wrong."),
           none⟩ := by
      unfold create protocol createLoop
      rcases h1 with h1 | h1 <;> rcases h2 with h2 | h2 <;>
        simp [h1, h2, h3, createLoop]
    rw [hcr]
    exact ⟨rfl, _, rfl⟩

/-- Witness for the amended claim C5: the three conditional branches applied
at concrete accessor oracles. -/
theorem transport_negotiator_resolution_witness :
    (create
        (fun proto => if proto = "http"
          then ⟨some (CreateData.gameId "g1"), none, none⟩
          else ⟨none, some true, some "refused"⟩) none
      = ⟨Except.ok "g1", some false⟩) ∧
    (create (fun _ => ⟨none, some true, some "refused"⟩) none
      = ⟨Except.ok "A network error occurred while trying to connect to the server.",
         some false⟩) ∧
    ((create (fun _ => ⟨none, none, some "boom"⟩) none).tls = none ∧
      ∃ m, (create (fun _ => ⟨none, none, some "boom"⟩) none).result = Except.error m) := by
  refine ⟨?_, ?_, ?_⟩
  · exact ((transport_negotiator_resolution "http"
      (fun proto => if proto = "http"
        then ⟨some (CreateData.gameId "g1"), none, none⟩
        else ⟨none, some true, some "refused"⟩) "g1").2.1
      (Or.inl rfl) rfl).1
  · exact (transport_negotiator_resolution "http"
      (fun _ => ⟨none, some true, some "refused"⟩) "g1").2.2.1
      (Or.inl rfl) (Or.inl rfl) rfl
  · exact (transport_negotiator_resolution "http"
      (fun _ => ⟨none, none, some "boom"⟩) "g1").2.2.2
      (Or.inl rfl) (Or.inl rfl) (by simp)

end V0

/-- Claim C6 counterexample: on a freshly constructed socket (no game id set)
with an empty cache, `getUsername` performs zero network queries for the
player and returns `null`, although the network oracle would have answered
with a username; the claim says a cache miss performs exactly one network
query for that player. -/
theorem getUsername_no_game_id_zero_queries :
    getUsername (fun _ _ => ⟨some (PlayerData.username "alice"), some 200, none⟩)
        ⟨none, [], Verbosity.info⟩ "p1"
      = ⟨none, ⟨none, [], Verbosity.info⟩,
         [LogMsg.errorMsg "Cannot resolve usernames before connecting to a game."], 0⟩ ∧
      (getUsername (fun _ _ => ⟨some (PlayerData.username "alice"), some 200, none⟩)
        ⟨none, [], Verbosity.info⟩ "p1").playerQueries ≠ 1 := ⟨rfl, by decide⟩

/-- Claim C6 (amended): `getUsername` never throws; a cached non-empty
username is returned with no network query and no state change; otherwise,
when a game id is set, exactly one `getPlayer` query is performed: on a
response carrying a username it is cached and returned, on any other
response `null` is returned with the state unchanged, a 404 logging a
warning and a network failure logging an error when the verbosity level
reaches the respective threshold; when no game id is set, no network query is
performed and `null` is returned. -/
theorem getUsername_cache_first (net : String → String → PlayerRes)
    (s : SocketState) (pid u : String) :
    (s.usernameCache.lookup pid = some u → u ≠ "" →
      getUsername net s pid = ⟨some u, s, [], 0⟩) ∧
    (∀ gid, s.gameId = some gid →
      (s.usernameCache.lookup pid = none ∨ s.usernameCache.lookup pid = some "") →
      ((net gid pid).data = some (PlayerData.username u) →
        getUsername net s pid
          = ⟨some u, { s with usernameCache := cacheInsert s.usernameCache pid u }, [], 1⟩) ∧
      (((net gid pid).data = none ∨ (net gid pid).data = some PlayerData.other) →
        (getUsername net s pid).result = none ∧
          (getUsername net s pid).state = s ∧
          (getUsername net s pid).playerQueries = 1 ∧
          ((net gid pid).statusCode = some 404 →
            verbosityReached s.verbosity Verbosity.warning = true →
            LogMsg.warnMsg ("Unable to find username for player \"" ++ pid ++ "\".")
              ∈ (getUsername net s pid).log) ∧
          ((net gid pid).networkError = some true →
            verbosityReached s.verbosity Verbosity.error = true →
            LogMsg.errorMsg "A network error occurred while trying to connect to the server."
              ∈ (getUsername net s pid).log))) ∧
    (s.gameId = none →
      (s.usernameCache.lookup pid = none ∨ s.usernameCache.lookup pid = some "") →
      (getUsername net s pid).result = none ∧
        (getUsername net s pid).playerQueries = 0 ∧
        (getUsername net s pid).state = s) := by
  refine ⟨?_, ?_, ?_⟩
  · intro hc hne
    unfold getUsername
    rw [hc]
    simp [hne]
  · intro gid hgid hc
    have hfall : getUsername net s pid = fetchUsername net s pid := by
      unfold getUsername
      rcases hc with hc | hc <;> simp [hc]
    constructor
    · intro hdata
      rw [hfall]
      unfold fetchUsername
      rw [hgid]
      simp [hdata]
    · intro hdata
      have hres : fetchUsername net s pid
          = ⟨none, s,
             (if (net gid pid).statusCode = some 404 ∧
                  verbosityReached s.verbosity Verbosity.warning
               then [LogMsg.warnMsg ("Unable to find username for player \"" ++ pid ++ "\".")]
               else [])
             ++ (if (net gid pid).networkError = some true ∧
                  verbosityReached s.verbosity Verbosity.error
               then [LogMsg.errorMsg
                 "A network error occurred while trying to connect to the server."]
               else []),
             1⟩ := by
        unfold fetchUsername
        rw [hgid]
        rcases hdata with hdata | hdata <;> simp [hdata]
      rw [hfall, hres]
      refine ⟨rfl, rfl, rfl, fun h404 hv => ?_, fun hnet hv => ?_⟩
      · simp [h404, hv]
      · simp [hnet, hv]
  · intro hgid hc
    have hfall : getUsername net s pid = fetchUsername net s pid := by
      unfold getUsername
      rcases hc with hc | hc <;> simp [hc]
    rw [hfall]
    unfold fetchUsername
    rw [hgid]
    exact ⟨rfl, rfl, rfl⟩

/-- Witness for the amended claim C6: the cache-hit branch, the one-query
success and failure branches, and the no-game-id branch, each at a concrete
state and oracle. -/
theorem getUsername_cache_first_witness :
    (getUsername (fun _ _ => ⟨some (PlayerData.username "bob"), some 200, none⟩)
        ⟨some "g1", [("p1", "alice")], Verbosity.info⟩ "p1"
      = ⟨some "alice", ⟨some "g1", [("p1", "alice")], Verbosity.info⟩, [], 0⟩) ∧
    (getUsername (fun _ _ => ⟨some (PlayerData.username "bob"), some 200, none⟩)
        ⟨some "g1", [], Verbosity.info⟩ "p2"
      = ⟨some "bob",
         ⟨some "g1", [("p2", "bob")], Verbosity.info⟩, [], 1⟩) ∧
    ((getUsername (fun _ _ => ⟨none, some 404, none⟩)
        ⟨some "g1", [], Verbosity.debug⟩ "p3").result = none ∧
      (getUsername (fun _ _ => ⟨none, some 404, none⟩)
        ⟨some "g1", [], Verbosity.debug⟩ "p3").playerQueries = 1 ∧
      LogMsg.warnMsg ("Unable to find username for player \"p3\".")
        ∈ (getUsername (fun _ _ => ⟨none, some 404, none⟩)
            ⟨some "g1", [], Verbosity.debug⟩ "p3").log) ∧
    ((getUsername (fun _ _ => ⟨some (PlayerData.username "bob"), some 200, none⟩)
        ⟨none, [], Verbosity.info⟩ "p4").result = none ∧
      (getUsername (fun _ _ => ⟨some (PlayerData.username "bob"), some 200, none⟩)
        ⟨none, [], Verbosity.info⟩ "p4").playerQueries = 0) := by
  refine ⟨?_, ?_, ?_, ?_⟩
  · exact (getUsername_cache_first
      (fun _ _ => ⟨some (PlayerData.username "bob"), some 200, none⟩)
      ⟨some "g1", [("p1", "alice")], Verbosity.info⟩ "p1" "alice").1 rfl (by decide)
  · exact ((getUsername_cache_first
      (fun _ _ => ⟨some (PlayerData.username "bob"), some 200, none⟩)
      ⟨some "g1", [], Verbosity.info⟩ "p2" "bob").2.1 "g1" rfl (Or.inl rfl)).1 rfl
  · have h := ((getUsername_cache_first (fun _ _ => ⟨none, some 404, none⟩)
      ⟨some "g1", [], Verbosity.debug⟩ "p3" "bob").2.1 "g1" rfl (Or.inl rfl)).2
      (Or.inl rfl)
    exact ⟨h.1, h.2.2.1, h.2.2.2.1 rfl (by decide)⟩
  · have h := (getUsername_cache_first
      (fun _ _ => ⟨some (PlayerData.username "bob"), some 200, none⟩)
      ⟨none, [], Verbosity.info⟩ "p4" "bob").2.2 rfl (Or.inl rfl)
    exact ⟨h.1, h.2.1⟩

theorem noGameReach_invariant {s : SocketState} (h : NoGameReach s) :
    s.gameId = none ∧ s.usernameCache = [] := by
  induction h with
  | init v => exact ⟨rfl, rfl⟩
  | stepGet net pid h ih =>
    rename_i s'
    obtain ⟨g, c, v⟩ := s'
    obtain ⟨hg, hc⟩ := ih
    dsimp at hg hc
    subst hg
    subst hc
    exact ⟨rfl, rfl⟩
  | stepFetch net pid h ih =>
    rename_i s'
    obtain ⟨g, c, v⟩ := s'
    obtain ⟨hg, hc⟩ := ih
    dsimp at hg hc
    subst hg
    subst hc
    exact ⟨rfl, rfl⟩
  | stepFetchAll netAll h ih =>
    rename_i s'
    obtain ⟨g, c, v⟩ := s'
    obtain ⟨hg, hc⟩ := ih
    dsimp at hg hc
    subst hg
    subst hc
    exact ⟨rfl, rfl⟩
  | stepVerbosity v h ih => exact ih

/-- Claim C10: before any game id has been set on the socket, `getUsername`
returns `null` for every player id and performs no network request. -/
theorem getUsername_before_game_returns_null {s : SocketState}
    (h : NoGameReach s) (net : String → String → PlayerRes) (pid : String) :
    (getUsername net s pid).result = none ∧
      (getUsername net s pid).playerQueries = 0 := by
  obtain ⟨hg, hc⟩ := noGameReach_invariant h
  obtain ⟨g, c, v⟩ := s
  dsimp at hg hc
  subst hg
  subst hc
  exact ⟨rfl, rfl⟩

/-- Witness for claim C10 on the initial state. -/
theorem getUsername_before_game_returns_null_witness :
    (getUsername (fun _ _ => ⟨some (PlayerData.username "alice"), some 200, none⟩)
        ⟨none, [], Verbosity.info⟩ "p9").result = none ∧
      (getUsername (fun _ _ => ⟨some (PlayerData.username "alice"), some 200, none⟩)
        ⟨none, [], Verbosity.info⟩ "p9").playerQueries = 0 :=
  getUsername_before_game_returns_null (NoGameReach.init Verbosity.info) _ "p9"

theorem parseLit_self (l : List Char) : ∀ rest, parseLit l (l ++ rest) = some rest := by
  induction l with
  | nil => intro rest; rfl
  | cons c ls ih =>
    intro rest
    show parseLit (c :: ls) (c :: (ls ++ rest)) = some rest
    unfold parseLit
    rw [if_pos rfl]
    exact ih rest

theorem hexVal_hexDigit (n : Nat) (h : n < 16) : hexVal (hexDigit n) = some n := by
  interval_cases n <;> rfl

theorem parseQuotedAux_escape_step (c : Char) (acc tail : List Char) :
    parseQuotedAux acc (escapeChar c ++ tail) = parseQuotedAux (c :: acc) tail := by
  by_cases h1 : c = '"'
  · subst h1
    rw [show escapeChar '"' ++ tail = '\\' :: '"' :: tail from rfl, parseQuotedAux.eq_def]
    rfl
  · by_cases h2 : c = '\\'
    · subst h2
      rw [show escapeChar '\\' ++ tail = '\\' :: '\\' :: tail from rfl, parseQuotedAux.eq_def]
      rfl
    · by_cases h3 : c = '\n'
      · subst h3
        rw [show escapeChar '\n' ++ tail = '\\' :: 'n' :: tail from rfl, parseQuotedAux.eq_def]
        rfl
      · by_cases h4 : c = '\r'
        · subst h4
          rw [show escapeChar '\r' ++ tail = '\\' :: 'r' :: tail from rfl, parseQuotedAux.eq_def]
          rfl
        · by_cases h5 : c = '\t'
          · subst h5
            rw [show escapeChar '\t' ++ tail = '\\' :: 't' :: tail from rfl,
              parseQuotedAux.eq_def]
            rfl
          · by_cases h6 : c = Char.ofNat 8
            · subst h6
              rw [show escapeChar (Char.ofNat 8) ++ tail = '\\' :: 'b' :: tail from rfl,
                parseQuotedAux.eq_def]
              rfl
            · by_cases h7 : c = Char.ofNat 12
              · subst h7
                rw [show escapeChar (Char.ofNat 12) ++ tail = '\\' :: 'f' :: tail from rfl,
                  parseQuotedAux.eq_def]
                rfl
              · by_cases h8 : c.toNat < 32
                · have hesc : escapeChar c ++ tail
                      = '\\' :: 'u' :: '0' :: '0' :: hexDigit (c.toNat / 16)
                        :: hexDigit (c.toNat % 16) :: tail := by
                    simp [escapeChar, h1, h2, h3, h4, h5, h6, h7, h8]
                  have e1 := hexVal_hexDigit (c.toNat / 16) (by omega)
                  have e2 := hexVal_hexDigit (c.toNat % 16) (Nat.mod_lt _ (by norm_num))
                  have hph : parseHex4 '0' '0' (hexDigit (c.toNat / 16))
                      (hexDigit (c.toNat % 16)) = some c.toNat := by
                    unfold parseHex4
                    rw [show hexVal '0' = some 0 from rfl, e1, e2]
                    show some (((0 * 16 + 0) * 16 + c.toNat / 16) * 16 + c.toNat % 16)
                      = some c.toNat
                    congr 1
                    omega
                  have hred : parseQuotedAux acc
                      ('\\' :: 'u' :: '0' :: '0' :: hexDigit (c.toNat / 16)
                        :: hexDigit (c.toNat % 16) :: tail)
                      = match parseHex4 '0' '0' (hexDigit (c.toNat / 16))
                          (hexDigit (c.toNat % 16)) with
                        | some v => parseQuotedAux (Char.ofNat v :: acc) tail
                        | none => none := rfl
                  rw [hesc, hred, hph]
                  show parseQuotedAux (Char.ofNat c.toNat :: acc) tail
                    = parseQuotedAux (c :: acc) tail
                  rw [Char.ofNat_toNat]
                · have hesc : escapeChar c ++ tail = c :: tail := by
                    simp [escapeChar, h1, h2, h3, h4, h5, h6, h7, h8]
                  rw [hesc, parseQuotedAux.eq_def]
                  simp [h1, h2]

theorem parseQuotedAux_escape (l : List Char) :
    ∀ acc rest, parseQuotedAux acc ((l.map escapeChar).flatten ++ '"' :: rest)
      = some (String.mk (acc.reverse ++ l), rest) := by
  induction l with
  | nil =>
    intro acc rest
    show parseQuotedAux acc ('"' :: rest) = _
    unfold parseQuotedAux
    rw [if_pos rfl]
    simp
  | cons c l ih =>
    intro acc rest
    have hsplit : ((c :: l).map escapeChar).flatten ++ '"' :: rest
        = escapeChar c ++ ((l.map escapeChar).flatten ++ '"' :: rest) := by
      simp
    rw [hsplit, parseQuotedAux_escape_step, ih]
    simp

theorem parseQuoted_quoteChars (s : String) (rest : List Char) :
    parseQuoted (quoteChars s ++ rest) = some (s, rest) := by
  have hsplit : quoteChars s ++ rest
      = '"' :: ((s.data.map escapeChar).flatten ++ '"' :: rest) := by
    simp [quoteChars]
  rw [hsplit]
  show parseQuotedAux [] ((s.data.map escapeChar).flatten ++ '"' :: rest) = some (s, rest)
  rw [parseQuotedAux_escape]
  rfl

theorem parseLit_self_nil (l : List Char) : parseLit l l = some [] := by
  have := parseLit_self l []
  rwa [List.append_nil] at this

theorem parseSession_serializeSession (sess : Session) :
    parseSession (serializeSession sess) = some sess := by
  obtain ⟨g, p, q⟩ := sess
  show parseSessionChars (sessionChars ⟨g, p, q⟩) = some ⟨g, p, q⟩
  unfold sessionChars
  simp only [List.append_assoc]
  unfold parseSessionChars
  simp only [parseLit_self, parseQuoted_quoteChars, parseLit_self_nil]

namespace NodeDataStore

theorem lookup_writeFileSync_self (fs : List (String × String)) (p contents : String) :
    (writeFileSync fs p contents).lookup p = some contents := by
  unfold writeFileSync
  cases hl : fs.lookup p with
  | some old =>
    simp only [hl, Option.isSome_some, if_true]
    induction fs with
    | nil => simp [List.lookup] at hl
    | cons hd tl ih =>
      obtain ⟨k, v⟩ := hd
      by_cases hk : p = k
      · subst hk
        have hhead : List.map (fun e => if e.1 = p then (e.1, contents) else e) ((p, v) :: tl)
            = (p, contents) :: List.map (fun e => if e.1 = p then (e.1, contents) else e) tl := by
          simp
        rw [hhead]
        simp [List.lookup]
      · have hbeq : (p == k) = false := beq_eq_false_iff_ne.mpr hk
        simp only [List.lookup, hbeq] at hl
        simp only [List.map_cons]
        rw [if_neg (by simpa using fun e => hk e.symm)]
        simp only [List.lookup, hbeq]
        exact ih hl
  | none =>
    simp only [hl, Option.isSome_none, Bool.false_eq_true, if_false]
    induction fs with
    | nil => simp [List.lookup]
    | cons hd tl ih =>
      obtain ⟨k, v⟩ := hd
      by_cases hk : p = k
      · subst hk
        simp [List.lookup] at hl
      · have hbeq : (p == k) = false := beq_eq_false_iff_ne.mpr hk
        simp only [List.lookup, hbeq] at hl
        simp only [List.cons_append, List.lookup, hbeq]
        exact ih hl

theorem lookup_filter_self_none (fs : List (String × String)) (p : String) :
    (fs.filter (fun e => e.1 != p)).lookup p = none := by
  induction fs with
  | nil => rfl
  | cons hd tl ih =>
    obtain ⟨k, v⟩ := hd
    by_cases hk : k = p
    · subst hk
      simp only [List.filter, bne_self_eq_false]
      exact ih
    · have hbne : (k != p) = true := bne_iff_ne.mpr hk
      have hbeq : (p == k) = false := beq_eq_false_iff_ne.mpr fun e => hk e.symm
      simp only [List.filter, hbne, List.lookup, hbeq]
      exact ih

end NodeDataStore

/-- Claim C9: session store round-trip laws: writing a session and reading
the same path returns an equal session object, and after a delete of the
path (whether it removed the file or threw `ENOENT` on a missing one) a read
returns null. -/
theorem session_store_round_trip (fs : List (String × String))
    (path : List String) (sess : Session) :
    NodeDataStore.readJSON (NodeDataStore.writeJSON fs path sess) path = some sess ∧
      NodeDataStore.readJSON
        (match NodeDataStore.deleteJSON fs path with
          | Except.ok fsAfter => fsAfter
          | Except.error _ => fs) path = none := by
  constructor
  · unfold NodeDataStore.readJSON NodeDataStore.writeJSON
    rw [NodeDataStore.lookup_writeFileSync_self]
    exact parseSession_serializeSession sess
  · unfold NodeDataStore.deleteJSON
    cases hl : (fs.lookup (joinPath path)).isSome with
    | true =>
      simp only [hl, if_true]
      unfold NodeDataStore.readJSON
      rw [NodeDataStore.lookup_filter_self_none]
    | false =>
      simp only [hl, Bool.false_eq_true, if_false]
      unfold NodeDataStore.readJSON
      cases hlk : fs.lookup (joinPath path) with
      | some c =>
        rw [hlk] at hl
        simp at hl
      | none => rfl

/-- Claim C7 counterexample: the historical `CodeGameSocket.emit` serializes
`JSON.stringify({ name, zerothOptions })`, so on an open socket it transmits
a frame whose payload sits under the property `zerothOptions`, which is not
the JSON serialization of the claimed `(name, data: payload)` envelope. -/
theorem emit_uses_wrong_envelope_key :
    (emit false true "move" (some (Json.str "e4"))).1
      = ["\x7b\"name\":\"move\",\"zerothOptions\":\"e4\"\x7d"] ∧
    "\x7b\"name\":\"move\",\"zerothOptions\":\"e4\"\x7d"
      ≠ stringifyEnvelope "move" (some (Json.str "e4")) :=
  ⟨rfl, by decide⟩

/-- Claim C7 (amended): in the current `GameSocket`, `send(name, payload)`
transmits exactly the JSON serialization of the envelope
`(name, data: payload)` when the socket connection is open, leaving the
client state unchanged; when no connection is established it logs an error
(at error-reaching verbosity), transmits nothing, queues nothing, and leaves
the client state unchanged; and when the socket exists but is not open the
underlying exception is caught, an error is logged and nothing is
transmitted.  The historical `CodeGameSocket.emit` does not satisfy the
envelope clause: it serializes the payload under the property
`zerothOptions` instead of `data`. -/
theorem send_fire_and_forget (s : SendState) (name : String) (data : Option Json) :
    (∀ c, s.socket = some c → c.openFlag = true →
      send s name data
        = (s, [stringifyEnvelope name data],
           if verbosityReached s.verbosity Verbosity.debug
             then [LogMsg.infoMsg ("sent \"" ++ name ++ "\":")]
             else [])) ∧
    (s.socket = none →
      send s name data
        = (s, [],
           if verbosityReached s.verbosity Verbosity.error
             then [LogMsg.errorMsg "There is currently no WebSocket connection established!"]
             else [])) ∧
    (∀ c, s.socket = some c → c.openFlag = false →
      send s name data
        = (s, [],
           if verbosityReached s.verbosity Verbosity.error
             then [LogMsg.errorMsg ("Unable to send command \"" ++ name ++ "\":")]
             else [])) := by
  refine ⟨?_, ?_, ?_⟩
  · intro c hc hopen
    unfold send wsSend
    rw [hc]
    simp [hopen]
  · intro hc
    unfold send
    rw [hc]
  · intro c hc hclosed
    unfold send wsSend
    rw [hc]
    simp [hclosed]

/-- Witness for the amended claim C7: the three `send` branches at concrete
states. -/
theorem send_fire_and_forget_witness :
    (send ⟨some ⟨true⟩, Verbosity.info⟩ "move" (some (Json.str "e4"))
      = (⟨some ⟨true⟩, Verbosity.info⟩,
         ["\x7b\"name\":\"move\",\"data\":\"e4\"\x7d"], [])) ∧
    (send ⟨none, Verbosity.info⟩ "move" none
      = (⟨none, Verbosity.info⟩, [],
         [LogMsg.errorMsg "There is currently no WebSocket connection established!"])) ∧
    (send ⟨some ⟨false⟩, Verbosity.info⟩ "move" none
      = (⟨some ⟨false⟩, Verbosity.info⟩, [],
         [LogMsg.errorMsg "Unable to send command \"move\":"])) := by
  refine ⟨?_, ?_, ?_⟩
  · have h := (send_fire_and_forget ⟨some ⟨true⟩, Verbosity.info⟩ "move"
      (some (Json.str "e4"))).1 ⟨true⟩ rfl rfl
    rw [h]
    rfl
  · have h := (send_fire_and_forget ⟨none, Verbosity.info⟩ "move" none).2.1 rfl
    rw [h]
    rfl
  · have h := (send_fire_and_forget ⟨some ⟨false⟩, Verbosity.info⟩ "move" none).2.2
      ⟨false⟩ rfl rfl
    rw [h]
    rfl

/-- Claim C8 counterexample: username resolution succeeds (cache hit) but the
WebSocket connection fails, so `connect` rejects — and the session has
nevertheless been persisted, refuting that a session is persisted only for a
connect that succeeds. -/
theorem connect_persists_despite_failed_connect :
    (connect (fun _ _ => ⟨none, none, none⟩) false "h"
        ⟨⟨none, [("p1", "alice")], Verbosity.info⟩, none, [], none⟩
        "g1" "p1" "sec").result
      = Except.error "WebSocket connection failed" ∧
    NodeDataStore.readJSON
        (connect (fun _ _ => ⟨none, none, none⟩) false "h"
          ⟨⟨none, [("p1", "alice")], Verbosity.info⟩, none, [], none⟩
          "g1" "p1" "sec").state.store
        [GAMES_PATH, encodeURIComponent "h", "alice"]
      = some ⟨"g1", "p1", "sec"⟩ := ⟨rfl, rfl⟩

/-- Claim C8 (amended): `connect` rejects with the player-not-found error
exactly when username resolution yields a falsy value (null — or the empty
string, which the truthiness test also rejects), and then no session is
persisted; when resolution yields a non-empty username the session triple is
persisted for `(host, username)` **before** the socket connection attempt, so
it is persisted on a successful connect (which opens the socket on the resume
endpoint) and stays persisted even when the socket connection then fails and
`connect` rejects. -/
theorem connect_session_persistence (net : String → String → PlayerRes)
    (connOk : Bool) (host : String) (s : GSState)
    (gameId playerId playerSecret u : String) :
    ((getUsername net { s.sock with gameId := some gameId } playerId).result = none →
      (connect net connOk host s gameId playerId playerSecret).result
          = Except.error ("Player with ID \"" ++ playerId
            ++ "\" does not exist on the specifited game server \"" ++ host ++ "\".") ∧
        (connect net connOk host s gameId playerId playerSecret).state.store = s.store ∧
        (connect net connOk host s gameId playerId playerSecret).state.session = s.session) ∧
    ((getUsername net { s.sock with gameId := some gameId } playerId).result = some u →
      u ≠ "" →
      NodeDataStore.readJSON
          (connect net connOk host s gameId playerId playerSecret).state.store
          [GAMES_PATH, encodeURIComponent host, u]
        = some ⟨gameId, playerId, playerSecret⟩ ∧
      (connOk = true →
        (connect net connOk host s gameId playerId playerSecret).result = Except.ok () ∧
        (connect net connOk host s gameId playerId playerSecret).state.socket
          = some (connectEndpoint gameId playerId playerSecret)) ∧
      (connOk = false →
        (connect net connOk host s gameId playerId playerSecret).result
          = Except.error "WebSocket connection failed")) ∧
    ((getUsername net { s.sock with gameId := some gameId } playerId).result = some "" →
      (connect net connOk host s gameId playerId playerSecret).result
          = Except.error ("Player with ID \"" ++ playerId
            ++ "\" does not exist on the specifited game server \"" ++ host ++ "\".") ∧
        (connect net connOk host s gameId playerId playerSecret).state.store = s.store ∧
        (connect net connOk host s gameId playerId playerSecret).state.session = s.session) := by
  refine ⟨?_, ?_, ?_⟩
  · intro hres
    unfold connect
    simp [hres]
  · intro hres hu
    unfold connect
    simp only [hres, if_neg hu]
    refine ⟨?_, ?_, ?_⟩
    · cases connOk <;>
        · show NodeDataStore.readJSON
            (NodeDataStore.writeJSON _ [GAMES_PATH, encodeURIComponent host, u] _)
            [GAMES_PATH, encodeURIComponent host, u] = _
          unfold NodeDataStore.readJSON NodeDataStore.writeJSON
          rw [NodeDataStore.lookup_writeFileSync_self]
          exact parseSession_serializeSession _
    · intro hok
      subst hok
      exact ⟨rfl, rfl⟩
    · intro hko
      subst hko
      rfl
  · intro hres
    unfold connect
    simp [hres]

/-- Witness for the amended claim C8: the resolution-failure branch, both
connection outcomes of the success branch, and the empty-string resolution
branch at concrete inputs. -/
theorem connect_session_persistence_witness :
    ((connect (fun _ _ => ⟨none, some 404, none⟩) true "h"
        ⟨⟨some "g0", [], Verbosity.silent⟩, none, [], none⟩ "g2" "p2" "s2").result
      = Except.error ("Player with ID \"p2\" does not exist on the specifited game server \"h\".")) ∧
    (NodeDataStore.readJSON
        (connect (fun _ _ => ⟨some (PlayerData.username "bob"), some 200, none⟩) true "h"
          ⟨⟨some "g0", [], Verbosity.silent⟩, none, [], none⟩ "g2" "p2" "s2").state.store
        [GAMES_PATH, encodeURIComponent "h", "bob"]
      = some ⟨"g2", "p2", "s2"⟩) ∧
    ((connect (fun _ _ => ⟨some (PlayerData.username "bob"), some 200, none⟩) true "h"
        ⟨⟨some "g0", [], Verbosity.silent⟩, none, [], none⟩ "g2" "p2" "s2").result
      = Except.ok ()) ∧
    ((connect (fun _ _ => ⟨some (PlayerData.username ""), some 200, none⟩) true "h"
        ⟨⟨some "g0", [], Verbosity.silent⟩, none, [], none⟩ "g2" "p2" "s2").result
      = Except.error ("Player with ID \"p2\" does not exist on the specifited game server \"h\".") ∧
      (connect (fun _ _ => ⟨some (PlayerData.username ""), some 200, none⟩) true "h"
        ⟨⟨some "g0", [], Verbosity.silent⟩, none, [], none⟩ "g2" "p2" "s2").state.store
        = []) := by
  refine ⟨?_, ?_, ?_, ?_⟩
  · exact ((connect_session_persistence (fun _ _ => ⟨none, some 404, none⟩) true "h"
      ⟨⟨some "g0", [], Verbosity.silent⟩, none, [], none⟩ "g2" "p2" "s2" "bob").1 rfl).1
  · exact ((connect_session_persistence
      (fun _ _ => ⟨some (PlayerData.username "bob"), some 200, none⟩) true "h"
      ⟨⟨some "g0", [], Verbosity.silent⟩, none, [], none⟩ "g2" "p2" "s2" "bob").2.1
      rfl (by decide)).1
  · exact (((connect_session_persistence
      (fun _ _ => ⟨some (PlayerData.username "bob"), some 200, none⟩) true "h"
      ⟨⟨some "g0", [], Verbosity.silent⟩, none, [], none⟩ "g2" "p2" "s2" "bob").2.1
      rfl (by decide)).2.1 rfl).1
  · have h := (connect_session_persistence
      (fun _ _ => ⟨some (PlayerData.username ""), some 200, none⟩) true "h"
      ⟨⟨some "g0", [], Verbosity.silent⟩, none, [], none⟩ "g2" "p2" "s2" "").2.2 rfl
    exact ⟨h.1, h.2.1⟩

end CodeGame
